import Mathlib

/-!
Shallow embedding of `src/analysis/analyze.py` (benchmark report generator).

Modelling conventions:
* A parsed JSON document is a `Json` value.  As in Python's `json.loads`,
  integer literals and float literals are kept distinct (`Json.int` vs
  `Json.float`); a float is idealized as the exact rational value of its
  decimal literal (binary floating point is not modelled; on every input
  appearing in the claims the decimal and binary renderings agree).
* Python's dynamic-typing corners that raise `TypeError`/`AttributeError`
  (e.g. `.get` on a non-dict, numeric format specs applied to strings,
  `str()` of containers inside f-strings) are totalized with inert defaults;
  no claim exercises those corners.
* File contents are opaque strings parsed by an abstract
  `parse : String → Option Json` standing for `json.loads` (`none` models a
  `JSONDecodeError`).
* The statistics library (`numpy`/`scipy`) is a black box: an optional
  `ScipyStats` record of uninterpreted functions.  `none` models
  `HAS_SCIPY = False`.
-/

/-- Python `json.loads` result: JSON document with ints and floats kept apart. -/
inductive Json where
  | null : Json
  | bool (b : Bool) : Json
  | int (n : Int) : Json
  | float (q : ℚ) : Json
  | str (s : String) : Json
  | arr (elems : List Json) : Json
  | obj (fields : List (String × Json)) : Json

/-- Python `d.get(k, default)` on a parsed JSON object.  On a non-dict Python
would raise `AttributeError`; totalized to the default (no claim hits it). -/
def Json.getD (j : Json) (k : String) (d : Json) : Json :=
  match j with
  | .obj fields => (List.lookup k fields).getD d
  | _ => d

/-- Python `k in d` membership test on a parsed JSON object. -/
def Json.hasKey (j : Json) (k : String) : Bool :=
  match j with
  | .obj fields => (List.lookup k fields).isSome
  | _ => false

/-- Numeric coercion used where Python applies a numeric format spec.
Python bools are ints (`True == 1`); a format spec on a string/container
raises, totalized to 0 (no claim hits it). -/
def Json.toQ : Json → ℚ
  | .int n => mkRat n 1
  | .float q => q
  | .bool b => if b then mkRat 1 1 else mkRat 0 1
  | _ => mkRat 0 1

/-- Decimal digit character. -/
def digitChar (d : Nat) : Char := Char.ofNat (48 + d)

/-- Little-endian decimal digits of a natural number (fuel-based to keep the
recursion structural; fuel `n` is always enough since `n < 10 ^ n`). -/
def natDigitsAux : Nat → Nat → List Char
  | 0, _ => []
  | f + 1, n => if n = 0 then [] else digitChar (n % 10) :: natDigitsAux f (n / 10)

/-- Little-endian decimal digits, with `0` rendered as "0". -/
def natCharsLE (n : Nat) : List Char :=
  if n = 0 then ['0'] else natDigitsAux n n

/-- Insert a thousands-separator comma after every third little-endian digit,
as Python's `","` format option does. -/
def withCommasLE (l : List Char) : List Char :=
  (l.enum.map (fun ic => if ic.1 ≠ 0 ∧ ic.1 % 3 = 0 then [',', ic.2] else [ic.2])).flatten

/-- Digits of `n`, most significant first, comma-grouped in threes. -/
def pyCommaNat (n : Nat) : String :=
  String.mk (withCommasLE (natCharsLE n)).reverse

/-- Python `format(i, ",")` for an int: sign, then comma-grouped digits. -/
def pyCommaInt (n : Int) : String :=
  (if n < 0 then "-" else "") ++ pyCommaNat n.natAbs

/-- Plain decimal rendering of a natural number. -/
def natStrBE (n : Nat) : String := String.mk (natCharsLE n).reverse

/-- Python `str(i)` for an int. -/
def pyIntStr (n : Int) : String :=
  (if n < 0 then "-" else "") ++ natStrBE n.natAbs

/-- Round the exact fraction `n / d` (with `d > 0`) to the nearest integer,
ties to even — the rounding used by Python's fixed-point float formatting. -/
def rheFrac (n : Int) (d : Nat) : Int :=
  let f := Int.fdiv n d
  let r := n - d * f
  if 2 * r < (d : Int) then f
  else if (d : Int) < 2 * r then f + 1
  else if f % 2 = 0 then f else f + 1

/-- Zero-pad a digit list on the left to width `w`. -/
def padZeros (w : Nat) (l : List Char) : List Char :=
  List.replicate (w - l.length) '0' ++ l

/-- Python `format(x, ",.<prec>f")`: round half-even to `prec` decimals,
comma-group the integer part; no decimal point when `prec = 0`. -/
def formatCommaFixed (prec : Nat) (q : ℚ) : String :=
  let s := rheFrac (q.num * ((10 : Nat) ^ prec : Nat)) q.den
  let a := s.natAbs
  let p := (10 : Nat) ^ prec
  (if s < 0 then "-" else "") ++ pyCommaNat (a / p) ++
    (if prec = 0 then "" else "." ++ String.mk (padZeros prec (natCharsLE (a % p)).reverse))

/-- Python `format(x, ".<prec>f")`: like `formatCommaFixed` but without the
thousands separators. -/
def formatFixed (prec : Nat) (q : ℚ) : String :=
  let s := rheFrac (q.num * ((10 : Nat) ^ prec : Nat)) q.den
  let a := s.natAbs
  let p := (10 : Nat) ^ prec
  (if s < 0 then "-" else "") ++ natStrBE (a / p) ++
    (if prec = 0 then "" else "." ++ String.mk (padZeros prec (natCharsLE (a % p)).reverse))

/-- Fractional decimal digits of the remainder `r / den`, at most `fuel` of
them (17 suffices for every float a JSON literal can denote). -/
def fracCharsAux (den : Nat) : Nat → Nat → List Char
  | 0, _ => []
  | f + 1, r =>
    if r = 0 then [] else digitChar ((10 * r) / den) :: fracCharsAux den f ((10 * r) % den)

/-- Fractional part of `|q|` as decimal digits; "0" when `q` is integral,
mirroring Python float `repr` always showing a fractional part. -/
def floatFracStr (q : ℚ) : String :=
  let ds := fracCharsAux q.den 17 (q.num.natAbs % q.den)
  if ds.isEmpty then "0" else String.mk ds

/-- Python `repr`/`str` of a (decimal-representable, moderate-magnitude)
float: sign, integer part, point, fractional digits. -/
def floatRepr (q : ℚ) : String :=
  (if q.num < 0 then "-" else "") ++ natStrBE (q.num.natAbs / q.den) ++ "." ++ floatFracStr q

/-- Python `format(x, ",")` for a float: comma-grouped integer part, then the
fractional digits verbatim (no rounding, no integer coercion). -/
def pyCommaFloat (q : ℚ) : String :=
  (if q.num < 0 then "-" else "") ++ pyCommaNat (q.num.natAbs / q.den) ++ "." ++ floatFracStr q

/-- Python `str()` as used in f-string interpolation.  Containers would
print their element reprs; rendered as placeholders (no claim reads them). -/
def pyStr : Json → String
  | .null => "None"
  | .bool b => if b then "True" else "False"
  | .int n => pyIntStr n
  | .float q => floatRepr q
  | .str s => s
  | .arr _ => "[...]"
  | .obj _ => "\x7b...\x7d"

/-- Python `format(v, ",")` as applied by the renderer to a raw JSON metric
value: ints are comma-grouped integers, floats keep their fractional part,
bools are ints.  Strings/containers make Python raise; totalized (unused). -/
def pyComma : Json → String
  | .int n => pyCommaInt n
  | .float q => pyCommaFloat q
  | .bool b => if b then "1" else "0"
  | j => pyStr j

/-- Code-point lexicographic comparison of character lists: exactly how
Python compares `str` values (and how `sorted` orders string keys). -/
def charListLe : List Char → List Char → Bool
  | [], _ => true
  | _ :: _, [] => false
  | a :: as, b :: bs =>
    if a.toNat < b.toNat then true
    else if b.toNat < a.toNat then false
    else charListLe as bs

/-- Python `a <= b` on strings. -/
def strLeB (a b : String) : Bool := charListLe a.data b.data

/-- Python `s.startswith(p)`. -/
def strStartsW (s p : String) : Bool := List.isPrefixOf p.data s.data

/-- Python `s.endswith(p)`. -/
def strEndsW (s p : String) : Bool := List.isSuffixOf p.data s.data

/-- Python `s.replace("/", "_")` (single-character pattern). -/
def replaceSlash (s : String) : String :=
  String.mk (s.data.map fun c => if c = '/' then '_' else c)

/-- Ordering of association-list entries by key, as Python's
`sorted(d.items())` orders a dict's items (keys are unique, so only the
key part of each tuple is ever compared). -/
def pairLe (a b : String × Json) : Prop := strLeB a.1 b.1 = true

instance : DecidableRel pairLe := fun _ _ => instDecidableEqBool _ _

/-- Python `sorted(d.items())` on a string-keyed dict (a stable ascending
sort; keys are unique so stability is irrelevant). -/
def sortPairs (l : List (String × Json)) : List (String × Json) :=
  List.insertionSort pairLe l

/-- String ordering as a relation, for `sorted` on lists of names. -/
def strLe (a b : String) : Prop := strLeB a b = true

instance : DecidableRel strLe := fun _ _ => instDecidableEqBool _ _

/-- Python `sorted` on a list of strings. -/
def sortStrs (l : List String) : List String :=
  List.insertionSort strLe l

/-! ### The statistics library as a black box

`analyze.py` guards every use of numpy/scipy behind `HAS_SCIPY`; the library
functions themselves are out of scope (consumed as black-box functions), so
they are uninterpreted fields of a record, and `HAS_SCIPY` is whether an
`Option ScipyStats` is `some`. -/

structure ScipyStats where
  npMean : List ℚ → ℚ
  npMedian : List ℚ → ℚ
  npStd : List ℚ → ℚ
  npPercentile : List ℚ → ℚ → ℚ
  npMin : List ℚ → ℚ
  npMax : List ℚ → ℚ
  mannwhitneyu : List ℚ → List ℚ → ℚ × ℚ

/-- `compute_percentiles` from `analyze.py` (lines 54-80).  The returned
Python dict is modelled as an association list in literal order.  The
fallback median is `sorted_data[n // 2]` — the upper-middle element. -/
def compute_percentiles (scipy : Option ScipyStats) (data : List ℚ) : List (String × ℚ) :=
  if data = [] then []
  else
    match scipy with
    | some s =>
      [("mean", s.npMean data), ("median", s.npMedian data), ("std", s.npStd data),
       ("p50", s.npPercentile data 50), ("p95", s.npPercentile data 95),
       ("p99", s.npPercentile data 99), ("min", s.npMin data), ("max", s.npMax data),
       ("n", (data.length : ℚ))]
    | none =>
      let sorted_data := List.insertionSort (· ≤ ·) data
      let n := sorted_data.length
      [("mean", (data.foldl (· + ·) 0) / (mkRat n 1)),
       ("median", sorted_data.getD (n / 2) 0),
       ("min", sorted_data.getD 0 0),
       ("max", sorted_data.getLastD 0),
       ("n", (n : ℚ))]

/-- Result dict of `mann_whitney_test`. -/
inductive MWResult where
  | unavailable : MWResult
  | available (statistic p_value : ℚ) (significant_at_005 : Bool) : MWResult
  deriving DecidableEq

/-- `mann_whitney_test` from `analyze.py` (lines 83-93).  `p_value < 0.05`
is the exact rational comparison (0.05 = 1/20). -/
def mann_whitney_test (scipy : Option ScipyStats) (a b : List ℚ) : MWResult :=
  match scipy with
  | none => .unavailable
  | some s =>
    if a.length < 3 ∨ b.length < 3 then .unavailable
    else
      let r := s.mannwhitneyu a b
      .available r.1 r.2 (decide (r.2 < mkRat 1 20))

/-! ### Result loader -/

/-- The `results` dict built by `load_results`: one optional slot per
category key.  The four tabular categories hold insertion-ordered
association lists standing for Python dicts (keys unique). -/
structure ResultSet where
  versions : Option Json
  system : Option Json
  http : Option (List (String × Json))
  microbench : Option (List (String × Json))
  coldstart : Option (List (String × Json))
  memory : Option (List (String × Json))

/-- The empty `results` dict. -/
def emptyRS : ResultSet := ⟨none, none, none, none, none, none⟩

/-- Python `not results`: the dict is empty iff no category was ever set. -/
def ResultSet.isEmpty (rs : ResultSet) : Bool :=
  rs.versions.isNone && rs.system.isNone && rs.http.isNone &&
    rs.microbench.isNone && rs.coldstart.isNone && rs.memory.isNone

/-- Python dict assignment `d[k] = v`: replace in place if the key exists
(keeping its position), else append. -/
def dinsert (l : List (String × Json)) (k : String) (v : Json) : List (String × Json) :=
  match l with
  | [] => [(k, v)]
  | e :: rest => if e.1 = k then (k, v) :: rest else e :: dinsert rest k v

/-- Classification of a directory entry, following the `glob("*.json")`
filter and the `if/elif` chain of `load_results` (the chain's conditions are
mutually exclusive, so priority does not matter). -/
inductive FileClass where
  | vers | sysinfo | http | micro | cold | mem | skip
  deriving DecidableEq

def classify (name : String) : FileClass :=
  if strEndsW name ".json" = false then .skip
  else if name = "versions.json" then .vers
  else if name = "system_info.json" then .sysinfo
  else if strStartsW name "http_" then .http
  else if strStartsW name "microbench_" then .micro
  else if strStartsW name "coldstart_" then .cold
  else if strStartsW name "memory_" then .mem
  else .skip

/-- Key derived for an `http_*` file:
`f"{data.get('runtime', 'unknown')}_{data.get('endpoint', '').replace('/', '_')}"`. -/
def httpKey (data : Json) : String :=
  pyStr (data.getD "runtime" (.str "unknown")) ++ "_" ++
    replaceSlash (pyStr (data.getD "endpoint" (.str "")))

/-- Key derived for `microbench_*`/`coldstart_*`/`memory_*` files:
`data.get("runtime", "unknown")`.  Python uses the raw JSON value as the
dict key; modelled as its interpolated string (claims only exercise string
or missing `runtime` fields, where the two coincide). -/
def rtKey (data : Json) : String :=
  pyStr (data.getD "runtime" (.str "unknown"))

/-- One loop iteration of `load_results`: store the parsed document in its
category (creating the category dict on first use). -/
def applyFile (rs : ResultSet) (cls : FileClass) (j : Json) : ResultSet :=
  match cls with
  | .vers => { rs with versions := some j }
  | .sysinfo => { rs with system := some j }
  | .http => { rs with http := some (dinsert (rs.http.getD []) (httpKey j) j) }
  | .micro => { rs with microbench := some (dinsert (rs.microbench.getD []) (rtKey j) j) }
  | .cold => { rs with coldstart := some (dinsert (rs.coldstart.getD []) (rtKey j) j) }
  | .mem => { rs with memory := some (dinsert (rs.memory.getD []) (rtKey j) j) }
  | .skip => rs

/-- The `for f in results_dir.glob("*.json")` loop.  A recognized file whose
content fails to parse raises `json.JSONDecodeError`, modelled as `.error ()`
aborting the fold; unrecognized files are never parsed. -/
def loadGo (parse : String → Option Json) (rs : ResultSet) :
    List (String × String) → Except Unit ResultSet
  | [] => .ok rs
  | f :: rest =>
    if classify f.1 = FileClass.skip then loadGo parse rs rest
    else
      match parse f.2 with
      | none => .error ()
      | some j => loadGo parse (applyFile rs (classify f.1) j) rest

/-- `load_results` from `analyze.py` (lines 22-51).  The directory is the
list of its `(filename, content)` entries in enumeration order. -/
def load_results (parse : String → Option Json) (files : List (String × String)) :
    Except Unit ResultSet :=
  loadGo parse emptyRS files

/-! ### Report renderer

`generate_report` (lines 96-207) builds a `lines` list and writes
`"\n".join(lines)`; the embedding works at the `lines` level. The wall-clock
timestamp is a parameter `ts`. -/

/-- Title and generation-timestamp block (lines 99-102). -/
def titleBlock (ts : String) : List String :=
  ["# zigttp Benchmark Results", "", "**Generated:** " ++ ts, ""]

/-- The nested runtime-versions sub-list (lines 115-121): rendered only when
`sys.get("runtimes", {})` is a truthy dict (a truthy non-dict would make
Python raise on `.items()`; totalized to nothing). -/
def runtimesBlock (sys : Json) : List String :=
  match sys.getD "runtimes" (.obj []) with
  | .obj fields =>
    if fields.isEmpty then []
    else
      ["### Runtime Versions", ""] ++
        fields.map (fun rv => "- **" ++ rv.1 ++ ":** " ++ pyStr rv.2) ++ [""]
  | _ => []

/-- System-information section (lines 105-121). Python renders it whenever
the `system` key is present. -/
def renderSystem (rs : ResultSet) : List String :=
  match rs.system with
  | none => []
  | some sys =>
    ["## System Information", "",
     "- **OS:** " ++ pyStr (sys.getD "os" (.str "unknown")) ++ " " ++
       pyStr (sys.getD "os_version" (.str "")),
     "- **CPU:** " ++ pyStr (sys.getD "cpu_model" (.str "unknown")),
     "- **Cores:** " ++ pyStr (sys.getD "cpu_cores" (.str "unknown")),
     "- **RAM:** " ++ pyStr (sys.getD "ram_gb" (.str "unknown")) ++ " GB", ""] ++
    runtimesBlock sys

/-- One HTTP table row (lines 131-136): RPS with `",.0f"`, p99 latency with
`".4f"` suffixed "s". -/
def httpRow (data : Json) : String :=
  "| " ++ pyStr (data.getD "runtime" (.str "unknown")) ++ " | " ++
    pyStr (data.getD "endpoint" (.str "unknown")) ++ " | " ++
    formatCommaFixed 0 (Json.toQ ((data.getD "metrics" (.obj [])).getD "requests_per_second" (.int 0))) ++ " | " ++
    formatFixed 4 (Json.toQ ((data.getD "metrics" (.obj [])).getD "latency_p99_secs" (.int 0))) ++ "s |"

/-- HTTP benchmark section (lines 124-137); rows iterate
`sorted(results["http"].items())`. -/
def renderHttp (rs : ResultSet) : List String :=
  match rs.http with
  | none => []
  | some entries =>
    ["## HTTP Benchmark Results", "",
     "| Runtime | Endpoint | RPS | p99 Latency |",
     "|---------|----------|-----|-------------|"] ++
    (sortPairs entries).map (fun e => httpRow e.2) ++ [""]

/-- Benchmark names declared by one microbench payload. -/
def benchKeys (data : Json) : List String :=
  match data.getD "benchmarks" (.obj []) with
  | .obj fs => fs.map Prod.fst
  | _ => []

/-- `sorted(bench_names)` where `bench_names` is the set union of all
benchmark names (a Python set; only its sorted enumeration is observable). -/
def sortedBenchNames (entries : List (String × Json)) : List String :=
  sortStrs (entries.flatMap (fun e => benchKeys e.2)).dedup

/-- One cell of the microbench table (lines 159-164). -/
def microCell (bench : String) (data : Json) : String :=
  match data.getD "benchmarks" (.obj []) with
  | .obj fs =>
    match List.lookup bench fs with
    | some bj => " " ++ formatCommaFixed 2 (Json.toQ (bj.getD "ops_per_sec" (.int 0))) ++ " ops/s |"
    | none => " - |"
  | _ => " - |"

/-- One microbench table row (lines 156-165). -/
def microRow (entries : List (String × Json)) (bench : String) : String :=
  "| " ++ bench ++ " |" ++ String.join (entries.map (fun e => microCell bench e.2))

/-- Microbenchmark section (lines 140-166).  Note the code's header
construction `"|".join(f" {rt} |" ...)` yields "||" between runtime columns,
and the whole table (plus the trailing blank) is emitted only when
`bench_names` is non-empty. -/
def renderMicro (rs : ResultSet) : List String :=
  match rs.microbench with
  | none => []
  | some entries =>
    ["## Microbenchmark Results", ""] ++
    (let names := sortedBenchNames entries
     if names.isEmpty then []
     else
       ["| Benchmark |" ++ String.intercalate "|" (entries.map (fun e => " " ++ e.1 ++ " |")),
        "|" ++ String.intercalate "|" (List.replicate (entries.length + 1) "---") ++ "|"] ++
       names.map (microRow entries) ++ [""])

/-- One cold-start table row (lines 175-181): each metric rendered with the
bare `","` format spec (no integer coercion) suffixed "us". -/
def coldRow (e : String × Json) : String :=
  "| " ++ e.1 ++ " | " ++
    pyComma ((e.2.getD "metrics" (.obj [])).getD "mean_us" (.int 0)) ++ "us | " ++
    pyComma ((e.2.getD "metrics" (.obj [])).getD "median_us" (.int 0)) ++ "us | " ++
    pyComma ((e.2.getD "metrics" (.obj [])).getD "p95_us" (.int 0)) ++ "us | " ++
    pyComma ((e.2.getD "metrics" (.obj [])).getD "p99_us" (.int 0)) ++ "us |"

/-- Cold-start section (lines 169-182). -/
def renderCold (rs : ResultSet) : List String :=
  match rs.coldstart with
  | none => []
  | some entries =>
    ["## Cold Start Results", "",
     "| Runtime | Mean | Median | p95 | p99 |",
     "|---------|------|--------|-----|-----|"] ++
    (sortPairs entries).map coldRow ++ [""]

/-- One memory table row (lines 191-196). -/
def memRow (e : String × Json) : String :=
  "| " ++ e.1 ++ " | " ++
    pyComma ((e.2.getD "metrics" (.obj [])).getD "baseline_kb" (.int 0)) ++ " KB | " ++
    pyComma ((e.2.getD "metrics" (.obj [])).getD "peak_kb" (.int 0)) ++ " KB | " ++
    pyComma ((e.2.getD "metrics" (.obj [])).getD "avg_kb" (.int 0)) ++ " KB |"

/-- Memory section (lines 185-197). -/
def renderMemory (rs : ResultSet) : List String :=
  match rs.memory with
  | none => []
  | some entries =>
    ["## Memory Usage", "",
     "| Runtime | Baseline | Peak | Avg |",
     "|---------|----------|------|-----|"] ++
    (sortPairs entries).map memRow ++ [""]

/-- Fixed trailing methodology section (lines 200-203). -/
def methodologyBlock : List String :=
  ["## Methodology", "",
   "See [methodology.md](../methodology.md) for detailed test methodology.", ""]

/-- `generate_report` (lines 96-207) as the list of output lines; the file
written is their `"\n"`-join. -/
def generate_report (ts : String) (rs : ResultSet) : List String :=
  titleBlock ts ++ renderSystem rs ++ renderHttp rs ++ renderMicro rs ++
    renderCold rs ++ renderMemory rs ++ methodologyBlock

/-! ### The `main` entry point (lines 210-229) -/

/-- Outcome of one run of `main`: early return 1 when the directory is
missing, uncaught `JSONDecodeError` (abnormal termination, traceback),
early return 1 when no recognized file was found, or normal completion
returning 0 with the report written. -/
inductive MainOutcome where
  | dirMissing : MainOutcome
  | crashed : MainOutcome
  | noResults : MainOutcome
  | success (report : List String) : MainOutcome

/-- `main` after argument parsing: directory existence, load, empty check,
report generation. -/
def runMain (parse : String → Option Json) (dirExists : Bool) (ts : String)
    (files : List (String × String)) : MainOutcome :=
  if dirExists = false then .dirMissing
  else
    match load_results parse files with
    | .error _ => .crashed
    | .ok rs => if rs.isEmpty then .noResults else .success (generate_report ts rs)

/-- Process exit status: `return 1` / `return 0` feed `exit(main())`; an
uncaught exception has no return value (Python aborts with a traceback),
modelled as `none`. -/
def exitCode : MainOutcome → Option Nat
  | .dirMissing => some 1
  | .crashed => none
  | .noResults => some 1
  | .success _ => some 0

/-- The output file contents, when one is written at all
(`output_path.write_text` runs only inside `generate_report`). -/
def writtenReport : MainOutcome → Option (List String)
  | .success r => some r
  | _ => none

/-! ### Derived definitions used by the claim statements -/

/-- A markdown section-heading line of the report: starts with "## "
(every data line of the report starts with '|', '-', '*', '#'+nonspace or
is blank, so this exactly picks out the section headings). -/
def isHdrL : List Char → Bool
  | a :: b :: c :: _ => a == '#' && b == '#' && c == ' '
  | _ => false

def isHdr (s : String) : Bool := isHdrL s.data

/-- The section headings the report must contain, in the renderer's fixed
order: one per present category, with Methodology always last. -/
def expectedHeaders (rs : ResultSet) : List String :=
  (if rs.system.isSome then ["## System Information"] else []) ++
  (if rs.http.isSome then ["## HTTP Benchmark Results"] else []) ++
  (if rs.microbench.isSome then ["## Microbenchmark Results"] else []) ++
  (if rs.coldstart.isSome then ["## Cold Start Results"] else []) ++
  (if rs.memory.isSome then ["## Memory Usage"] else []) ++
  ["## Methodology"]

/-- Lookup in an optional category dict. -/
def olookup (o : Option (List (String × Json))) (k : String) : Option Json :=
  match o with
  | none => none
  | some l => List.lookup k l

/-- The payload of the last entry carrying key `k`, if any. -/
def lastVal : List (String × Json) → String → Option Json
  | [], _ => none
  | e :: rest, k =>
    match lastVal rest k with
    | some v => some v
    | none => if k = e.1 then some e.2 else none

/-- The key `load_results` derives for a payload in a given category. -/
def keyFor (cls : FileClass) (j : Json) : String :=
  match cls with
  | .http => httpKey j
  | _ => rtKey j

/-- The `(derived key, payload)` stream a directory feeds into one category,
in enumeration order. -/
def catKeyed (cls : FileClass) (parse : String → Option Json)
    (files : List (String × String)) : List (String × Json) :=
  files.filterMap (fun f =>
    if classify f.1 = cls then (parse f.2).map (fun j => (keyFor cls j, j)) else none)

/-- A category dict is well-formed: non-empty with pairwise-distinct keys. -/
def catGood (o : Option (List (String × Json))) : Prop :=
  ∀ l, o = some l → l ≠ [] ∧ (l.map Prod.fst).Nodup

def catsGood (rs : ResultSet) : Prop :=
  catGood rs.http ∧ catGood rs.microbench ∧ catGood rs.coldstart ∧ catGood rs.memory

/-- What claim C7 asserts of a cold-start row: every metric cell is an
integer rendered with thousands separators, suffixed "us". -/
def coldRowIntRendered (e : String × Json) : Prop :=
  ∃ n1 n2 n3 n4 : Int,
    coldRow e = "| " ++ e.1 ++ " | " ++ pyCommaInt n1 ++ "us | " ++ pyCommaInt n2 ++
      "us | " ++ pyCommaInt n3 ++ "us | " ++ pyCommaInt n4 ++ "us |"

/-! ### Properties of the string order -/

theorem charListLe_cons (x y : Char) (xs ys : List Char) :
    charListLe (x :: xs) (y :: ys) =
      if x.toNat < y.toNat then true
      else if y.toNat < x.toNat then false
      else charListLe xs ys := rfl

theorem charListLe_trans :
    ∀ a b c, charListLe a b = true → charListLe b c = true → charListLe a c = true := by
  intro a
  induction a with
  | nil => intro b c _ _; rfl
  | cons x xs ih =>
    intro b c hab hbc
    cases b with
    | nil => simp [charListLe] at hab
    | cons y ys =>
      cases c with
      | nil => simp [charListLe] at hbc
      | cons z zs =>
        rw [charListLe_cons] at hab hbc ⊢
        rcases Nat.lt_trichotomy x.toNat y.toNat with h1 | h1 | h1 <;>
          rcases Nat.lt_trichotomy y.toNat z.toNat with h2 | h2 | h2
        · rw [if_pos (show x.toNat < z.toNat by omega)]
        · rw [if_pos (show x.toNat < z.toNat by omega)]
        · rw [if_neg (show ¬y.toNat < z.toNat by omega),
            if_pos (show z.toNat < y.toNat by omega)] at hbc
          exact absurd hbc (by simp)
        · rw [if_pos (show x.toNat < z.toNat by omega)]
        · rw [if_neg (show ¬x.toNat < y.toNat by omega),
            if_neg (show ¬y.toNat < x.toNat by omega)] at hab
          rw [if_neg (show ¬y.toNat < z.toNat by omega),
            if_neg (show ¬z.toNat < y.toNat by omega)] at hbc
          rw [if_neg (show ¬x.toNat < z.toNat by omega),
            if_neg (show ¬z.toNat < x.toNat by omega)]
          exact ih ys zs hab hbc
        · rw [if_neg (show ¬y.toNat < z.toNat by omega),
            if_pos (show z.toNat < y.toNat by omega)] at hbc
          exact absurd hbc (by simp)
        · rw [if_neg (show ¬x.toNat < y.toNat by omega),
            if_pos (show y.toNat < x.toNat by omega)] at hab
          exact absurd hab (by simp)
        · rw [if_neg (show ¬x.toNat < y.toNat by omega),
            if_pos (show y.toNat < x.toNat by omega)] at hab
          exact absurd hab (by simp)
        · rw [if_neg (show ¬x.toNat < y.toNat by omega),
            if_pos (show y.toNat < x.toNat by omega)] at hab
          exact absurd hab (by simp)

theorem charListLe_total : ∀ a b, charListLe a b = true ∨ charListLe b a = true := by
  intro a
  induction a with
  | nil => intro b; left; rfl
  | cons x xs ih =>
    intro b
    cases b with
    | nil => right; rfl
    | cons y ys =>
      rw [charListLe_cons, charListLe_cons]
      rcases Nat.lt_trichotomy x.toNat y.toNat with h | h | h
      · left; rw [if_pos (show x.toNat < y.toNat from h)]
      · rw [if_neg (show ¬x.toNat < y.toNat by omega),
          if_neg (show ¬y.toNat < x.toNat by omega),
          if_neg (show ¬y.toNat < x.toNat by omega),
          if_neg (show ¬x.toNat < y.toNat by omega)]
        exact ih ys
      · right; rw [if_pos (show y.toNat < x.toNat from h)]

instance : IsTotal (String × Json) pairLe := ⟨fun a b => charListLe_total a.1.data b.1.data⟩

instance : IsTrans (String × Json) pairLe :=
  ⟨fun a b c => charListLe_trans a.1.data b.1.data c.1.data⟩

instance : IsTotal String strLe := ⟨fun a b => charListLe_total a.data b.data⟩

instance : IsTrans String strLe := ⟨fun a b c => charListLe_trans a.data b.data c.data⟩

/-- The keys of a sorted category dict are in ascending Python string
order. -/
theorem sorted_keys_sortPairs (l : List (String × Json)) :
    ((sortPairs l).map Prod.fst).Pairwise (fun a b => strLeB a b = true) := by
  have h := List.sorted_insertionSort pairLe l
  rw [List.pairwise_map]
  exact h

/-! ### Section-heading detection lemmas -/

theorem isHdrL_cons_of_ne (a : Char) (h : (a == '#') = false) (l : List Char) :
    isHdrL (a :: l) = false := by
  match l with
  | [] => rfl
  | [_] => rfl
  | b :: c :: t => simp [isHdrL, h]

theorem isHdr_append (p s : String) (c : Char) (cs : List Char)
    (hd : p.data = c :: cs) (hne : (c == '#') = false) : isHdr (p ++ s) = false := by
  unfold isHdr
  rw [String.data_append, hd]
  exact isHdrL_cons_of_ne c hne (cs ++ s.data)

theorem isHdr_pipeSp (s : String) : isHdr ("| " ++ s) = false :=
  isHdr_append _ _ '|' _ rfl (by decide)

theorem isHdr_pipe (s : String) : isHdr ("|" ++ s) = false :=
  isHdr_append _ _ '|' _ rfl (by decide)

theorem isHdr_benchCol (s : String) : isHdr ("| Benchmark |" ++ s) = false :=
  isHdr_append _ _ '|' _ rfl (by decide)

theorem isHdr_gen (s : String) : isHdr ("**Generated:** " ++ s) = false :=
  isHdr_append _ _ '*' _ rfl (by decide)

theorem isHdr_os (s : String) : isHdr ("- **OS:** " ++ s) = false :=
  isHdr_append _ _ '-' _ rfl (by decide)

theorem isHdr_cpu (s : String) : isHdr ("- **CPU:** " ++ s) = false :=
  isHdr_append _ _ '-' _ rfl (by decide)

theorem isHdr_cores (s : String) : isHdr ("- **Cores:** " ++ s) = false :=
  isHdr_append _ _ '-' _ rfl (by decide)

theorem isHdr_ram (s : String) : isHdr ("- **RAM:** " ++ s) = false :=
  isHdr_append _ _ '-' _ rfl (by decide)

theorem isHdr_bullet (s : String) : isHdr ("- **" ++ s) = false :=
  isHdr_append _ _ '-' _ rfl (by decide)

theorem filter_isHdr_map_nil {α : Type} (f : α → String) (l : List α)
    (h : ∀ a, isHdr (f a) = false) : (l.map f).filter isHdr = [] := by
  induction l with
  | nil => rfl
  | cons x xs ih => simp [List.filter_cons, h x, ih]

theorem isHdr_httpRow (d : Json) : isHdr (httpRow d) = false := by
  unfold httpRow
  simp only [String.append_assoc]
  exact isHdr_pipeSp _

theorem isHdr_coldRow (e : String × Json) : isHdr (coldRow e) = false := by
  unfold coldRow
  simp only [String.append_assoc]
  exact isHdr_pipeSp _

theorem isHdr_memRow (e : String × Json) : isHdr (memRow e) = false := by
  unfold memRow
  simp only [String.append_assoc]
  exact isHdr_pipeSp _

theorem isHdr_microRow (entries : List (String × Json)) (b : String) :
    isHdr (microRow entries b) = false := by
  unfold microRow
  simp only [String.append_assoc]
  exact isHdr_pipeSp _

/-! ### Python dict-assignment lemmas -/

theorem lookup_dinsert (l : List (String × Json)) (k : String) (v : Json) (q : String) :
    List.lookup q (dinsert l k v) = if q = k then some v else List.lookup q l := by
  induction l with
  | nil =>
    by_cases hq : q = k
    · simp [dinsert, List.lookup, hq]
    · have hb : (q == k) = false := beq_eq_false_iff_ne.mpr hq
      simp [dinsert, List.lookup, hb, hq]
  | cons e rest ih =>
    by_cases he : e.1 = k
    · by_cases hq : q = k
      · have hb : (q == k) = true := beq_iff_eq.mpr hq
        have hb2 : (q == e.1) = true := beq_iff_eq.mpr (he ▸ hq)
        simp [dinsert, he, List.lookup, hb, hb2, hq]
      · have hb : (q == k) = false := beq_eq_false_iff_ne.mpr hq
        have hb2 : (q == e.1) = false := beq_eq_false_iff_ne.mpr (he ▸ hq)
        simp [dinsert, he, List.lookup, hb, hb2, hq]
    · by_cases hq : q = e.1
      · have hqk : q ≠ k := fun h => he (hq ▸ h)
        have hb : (q == e.1) = true := beq_iff_eq.mpr hq
        simp [dinsert, he, List.lookup, hb, hqk]
      · have hb : (q == e.1) = false := beq_eq_false_iff_ne.mpr hq
        simp [dinsert, he, List.lookup, hb, ih]

theorem dinsert_ne_nil (l : List (String × Json)) (k : String) (v : Json) :
    dinsert l k v ≠ [] := by
  cases l with
  | nil => simp [dinsert]
  | cons e rest =>
    by_cases he : e.1 = k <;> simp [dinsert, he]

theorem keys_dinsert (l : List (String × Json)) (k : String) (v : Json) :
    (dinsert l k v).map Prod.fst =
      if k ∈ l.map Prod.fst then l.map Prod.fst else l.map Prod.fst ++ [k] := by
  induction l with
  | nil => simp [dinsert]
  | cons e rest ih =>
    by_cases he : e.1 = k
    · have hm : k ∈ (e :: rest).map Prod.fst := by
        rw [List.map_cons, he]; exact List.mem_cons_self _ _
      rw [show dinsert (e :: rest) k v = (k, v) :: rest from by simp [dinsert, he]]
      rw [if_pos hm, List.map_cons, List.map_cons, he]
    · have hk : (k ∈ (e :: rest).map Prod.fst) ↔ k ∈ rest.map Prod.fst := by
        rw [List.map_cons]
        constructor
        · intro h
          rcases List.mem_cons.mp h with h | h
          · exact absurd h.symm he
          · exact h
        · intro h
          exact List.mem_cons.mpr (Or.inr h)
      rw [show dinsert (e :: rest) k v = e :: dinsert rest k v from by simp [dinsert, he]]
      by_cases hm : k ∈ rest.map Prod.fst
      · rw [List.map_cons, ih, if_pos hm, if_pos (hk.mpr hm), List.map_cons]
      · rw [List.map_cons, ih, if_neg hm, if_neg (fun h => hm (hk.mp h)), List.map_cons,
          List.cons_append]

theorem nodup_keys_dinsert (l : List (String × Json)) (k : String) (v : Json)
    (h : (l.map Prod.fst).Nodup) : ((dinsert l k v).map Prod.fst).Nodup := by
  rw [keys_dinsert]
  by_cases hm : k ∈ l.map Prod.fst
  · simpa [hm] using h
  · simp [hm, List.nodup_append, h]

/-! ### Loader lemmas -/

theorem olookup_getD (o : Option (List (String × Json))) (k : String) :
    List.lookup k (o.getD []) = olookup o k := by
  cases o <;> rfl

theorem olookup_some_dinsert (o : Option (List (String × Json))) (k : String) (v : Json)
    (q : String) :
    olookup (some (dinsert (o.getD []) k v)) q = if q = k then some v else olookup o q := by
  show List.lookup q (dinsert (o.getD []) k v) = _
  rw [lookup_dinsert, olookup_getD]

theorem lastVal_cons (e : String × Json) (l : List (String × Json)) (k : String) :
    lastVal (e :: l) k =
      match lastVal l k with
      | some v => some v
      | none => if k = e.1 then some e.2 else none := rfl

theorem catKeyed_cons_skip (cls : FileClass) (parse : String → Option Json)
    (f : String × String) (rest : List (String × String)) (h : ¬classify f.1 = cls) :
    catKeyed cls parse (f :: rest) = catKeyed cls parse rest := by
  simp [catKeyed, List.filterMap_cons, h]

theorem catKeyed_cons_hit (cls : FileClass) (parse : String → Option Json)
    (f : String × String) (rest : List (String × String)) (j : Json)
    (hcls : classify f.1 = cls) (hp : parse f.2 = some j) :
    catKeyed cls parse (f :: rest) = (keyFor cls j, j) :: catKeyed cls parse rest := by
  simp [catKeyed, List.filterMap_cons, hcls, hp]

theorem loadGo_cat (parse : String → Option Json)
    (get : ResultSet → Option (List (String × Json))) (cls : FileClass)
    (hne : cls ≠ FileClass.skip)
    (hap : ∀ rs j, get (applyFile rs cls j) =
      some (dinsert ((get rs).getD []) (keyFor cls j) j))
    (hskip : ∀ rs c j, c ≠ cls → get (applyFile rs c j) = get rs) :
    ∀ files rs₀ rs, loadGo parse rs₀ files = .ok rs → ∀ k,
      olookup (get rs) k =
        match lastVal (catKeyed cls parse files) k with
        | some v => some v
        | none => olookup (get rs₀) k := by
  intro files
  induction files with
  | nil =>
    intro rs₀ rs h k
    simp only [loadGo] at h
    cases h
    simp [catKeyed, lastVal]
  | cons f rest ih =>
    intro rs₀ rs h k
    simp only [loadGo] at h
    by_cases hc : classify f.1 = FileClass.skip
    · rw [if_pos hc] at h
      rw [catKeyed_cons_skip cls parse f rest (fun hh => hne ((hc.symm.trans hh).symm))]
      exact ih rs₀ rs h k
    · rw [if_neg hc] at h
      cases hp : parse f.2 with
      | none => rw [hp] at h; simp at h
      | some j =>
        rw [hp] at h
        have hrec := ih (applyFile rs₀ (classify f.1) j) rs h k
        by_cases hcls : classify f.1 = cls
        · rw [hcls, hap rs₀ j, olookup_some_dinsert] at hrec
          rw [catKeyed_cons_hit cls parse f rest j hcls hp, lastVal_cons]
          dsimp only
          cases hl : lastVal (catKeyed cls parse rest) k with
          | some v =>
            rw [hl] at hrec
            exact hrec.trans rfl
          | none =>
            rw [hl] at hrec
            dsimp only at hrec ⊢
            by_cases hk : k = keyFor cls j
            · rw [if_pos hk] at hrec ⊢
              exact hrec.trans rfl
            · rw [if_neg hk] at hrec ⊢
              exact hrec.trans rfl
        · rw [catKeyed_cons_skip cls parse f rest hcls]
          rw [hskip rs₀ (classify f.1) j hcls] at hrec
          exact hrec

theorem applyFile_isEmpty_false (rs : ResultSet) (cls : FileClass) (j : Json)
    (h : cls ≠ FileClass.skip) : (applyFile rs cls j).isEmpty = false := by
  cases cls <;> simp [applyFile, ResultSet.isEmpty] at h ⊢

theorem loadGo_isEmpty (parse : String → Option Json) :
    ∀ files rs₀ rs, loadGo parse rs₀ files = .ok rs →
      (rs.isEmpty = true ↔
        (rs₀.isEmpty = true ∧ ∀ f ∈ files, classify f.1 = FileClass.skip)) := by
  intro files
  induction files with
  | nil =>
    intro rs₀ rs h
    simp only [loadGo] at h
    cases h
    simp
  | cons f rest ih =>
    intro rs₀ rs h
    simp only [loadGo] at h
    by_cases hc : classify f.1 = FileClass.skip
    · rw [if_pos hc] at h
      rw [ih rs₀ rs h]
      simp [hc]
    · rw [if_neg hc] at h
      cases hp : parse f.2 with
      | none => rw [hp] at h; simp at h
      | some j =>
        rw [hp] at h
        rw [ih (applyFile rs₀ (classify f.1) j) rs h]
        simp [applyFile_isEmpty_false rs₀ (classify f.1) j hc, hc]

theorem catGood_dinsert (o : Option (List (String × Json))) (k : String) (v : Json)
    (h : catGood o) : catGood (some (dinsert (o.getD []) k v)) := by
  intro l hl
  have hl2 : dinsert (o.getD []) k v = l := Option.some.inj hl
  subst hl2
  refine ⟨dinsert_ne_nil _ _ _, nodup_keys_dinsert _ _ _ ?_⟩
  cases o with
  | none => simp
  | some l0 => exact (h l0 rfl).2

theorem applyFile_good (rs : ResultSet) (cls : FileClass) (j : Json)
    (h : catsGood rs) : catsGood (applyFile rs cls j) := by
  obtain ⟨h1, h2, h3, h4⟩ := h
  cases cls with
  | http => exact ⟨catGood_dinsert _ _ _ h1, h2, h3, h4⟩
  | micro => exact ⟨h1, catGood_dinsert _ _ _ h2, h3, h4⟩
  | cold => exact ⟨h1, h2, catGood_dinsert _ _ _ h3, h4⟩
  | mem => exact ⟨h1, h2, h3, catGood_dinsert _ _ _ h4⟩
  | vers => exact ⟨h1, h2, h3, h4⟩
  | sysinfo => exact ⟨h1, h2, h3, h4⟩
  | skip => exact ⟨h1, h2, h3, h4⟩

theorem loadGo_good (parse : String → Option Json) :
    ∀ files rs₀ rs, catsGood rs₀ → loadGo parse rs₀ files = .ok rs → catsGood rs := by
  intro files
  induction files with
  | nil =>
    intro rs₀ rs hg h
    simp only [loadGo] at h
    cases h
    exact hg
  | cons f rest ih =>
    intro rs₀ rs hg h
    simp only [loadGo] at h
    by_cases hc : classify f.1 = FileClass.skip
    · rw [if_pos hc] at h
      exact ih rs₀ rs hg h
    · rw [if_neg hc] at h
      cases hp : parse f.2 with
      | none => rw [hp] at h; simp at h
      | some j =>
        rw [hp] at h
        exact ih _ rs (applyFile_good rs₀ (classify f.1) j hg) h

theorem emptyRS_good : catsGood emptyRS := by
  refine ⟨?_, ?_, ?_, ?_⟩ <;> intro l hl <;> simp [emptyRS] at hl

theorem loadGo_error (parse : String → Option Json) :
    ∀ files rs₀ name c, (name, c) ∈ files → classify name ≠ FileClass.skip →
      parse c = none → loadGo parse rs₀ files = .error () := by
  intro files
  induction files with
  | nil =>
    intro rs₀ name c h
    simp at h
  | cons f rest ih =>
    intro rs₀ name c hmem hcl hp
    rcases List.mem_cons.mp hmem with heq | hmem2
    · have h1 : f.1 = name := by rw [← heq]
      have h2 : f.2 = c := by rw [← heq]
      simp only [loadGo]
      rw [h1, h2, if_neg hcl, hp]
    · by_cases hc : classify f.1 = FileClass.skip
      · simp only [loadGo]
        rw [if_pos hc]
        exact ih rs₀ name c hmem2 hcl hp
      · simp only [loadGo]
        rw [if_neg hc]
        cases hpf : parse f.2 with
        | none => rfl
        | some j => exact ih _ name c hmem2 hcl hp

/-! ### Per-section heading inventories -/

theorem isHdr_hSys : isHdr "## System Information" = true := by decide

theorem isHdr_hHttp : isHdr "## HTTP Benchmark Results" = true := by decide

theorem isHdr_hMicro : isHdr "## Microbenchmark Results" = true := by decide

theorem isHdr_hCold : isHdr "## Cold Start Results" = true := by decide

theorem isHdr_hMem : isHdr "## Memory Usage" = true := by decide

theorem isHdr_hMeth : isHdr "## Methodology" = true := by decide

theorem isHdr_title : isHdr "# zigttp Benchmark Results" = false := by decide

theorem isHdr_blank : isHdr "" = false := rfl

theorem isHdr_rtv : isHdr "### Runtime Versions" = false := by decide

theorem isHdr_httpcols : isHdr "| Runtime | Endpoint | RPS | p99 Latency |" = false := by decide

theorem isHdr_httpsep : isHdr "|---------|----------|-----|-------------|" = false := by decide

theorem isHdr_coldcols : isHdr "| Runtime | Mean | Median | p95 | p99 |" = false := by decide

theorem isHdr_coldsep : isHdr "|---------|------|--------|-----|-----|" = false := by decide

theorem isHdr_memcols : isHdr "| Runtime | Baseline | Peak | Avg |" = false := by decide

theorem isHdr_memsep : isHdr "|---------|----------|------|-----|" = false := by decide

theorem isHdr_see :
    isHdr "See [methodology.md](../methodology.md) for detailed test methodology." = false := by
  decide

theorem filter_titleBlock (ts : String) : (titleBlock ts).filter isHdr = [] := by
  simp [titleBlock, List.filter_cons, isHdr_title, isHdr_blank, isHdr_gen]

theorem filter_methodology : methodologyBlock.filter isHdr = ["## Methodology"] := by decide

theorem filter_runtimesBlock (sys : Json) : (runtimesBlock sys).filter isHdr = [] := by
  unfold runtimesBlock
  cases sys.getD "runtimes" (.obj []) with
  | obj fields =>
    dsimp only
    by_cases hf : fields.isEmpty
    · rw [if_pos hf]; rfl
    · rw [if_neg hf]
      have hb := filter_isHdr_map_nil (fun (rv : String × Json) => "- **" ++ rv.1 ++ ":** " ++ pyStr rv.2)
        fields (fun rv => by simp only [String.append_assoc]; exact isHdr_bullet _)
      simp [List.filter_append, List.filter_cons, isHdr_rtv, isHdr_blank, hb]
  | null => rfl
  | bool b => rfl
  | int n => rfl
  | float q => rfl
  | str s => rfl
  | arr es => rfl

theorem filter_renderSystem (rs : ResultSet) :
    (renderSystem rs).filter isHdr =
      if rs.system.isSome then ["## System Information"] else [] := by
  cases hs : rs.system with
  | none => simp [renderSystem, hs]
  | some sys =>
    have h1 : isHdr ("- **OS:** " ++ pyStr (sys.getD "os" (.str "unknown")) ++ " " ++
        pyStr (sys.getD "os_version" (.str ""))) = false := by
      simp only [String.append_assoc]; exact isHdr_os _
    have h2 : isHdr ("- **CPU:** " ++ pyStr (sys.getD "cpu_model" (.str "unknown"))) = false :=
      isHdr_cpu _
    have h3 : isHdr ("- **Cores:** " ++ pyStr (sys.getD "cpu_cores" (.str "unknown"))) = false :=
      isHdr_cores _
    have h4 : isHdr ("- **RAM:** " ++ pyStr (sys.getD "ram_gb" (.str "unknown")) ++ " GB") = false := by
      simp only [String.append_assoc]; exact isHdr_ram _
    simp [renderSystem, hs, List.filter_append, List.filter_cons, isHdr_hSys, isHdr_blank,
      h1, h2, h3, h4, filter_runtimesBlock]

theorem filter_renderHttp (rs : ResultSet) :
    (renderHttp rs).filter isHdr =
      if rs.http.isSome then ["## HTTP Benchmark Results"] else [] := by
  cases hs : rs.http with
  | none => simp [renderHttp, hs]
  | some entries =>
    have hr := filter_isHdr_map_nil (fun (e : String × Json) => httpRow e.2) (sortPairs entries)
      (fun e => isHdr_httpRow e.2)
    simp [renderHttp, hs, List.filter_append, List.filter_cons, isHdr_hHttp, isHdr_blank,
      isHdr_httpcols, isHdr_httpsep, hr]

theorem filter_renderMicro (rs : ResultSet) :
    (renderMicro rs).filter isHdr =
      if rs.microbench.isSome then ["## Microbenchmark Results"] else [] := by
  cases hs : rs.microbench with
  | none => simp [renderMicro, hs]
  | some entries =>
    have hrows := filter_isHdr_map_nil (microRow entries) (sortedBenchNames entries)
      (isHdr_microRow entries)
    have hhdr : isHdr ("| Benchmark |" ++
        String.intercalate "|" (entries.map (fun e => " " ++ e.1 ++ " |"))) = false :=
      isHdr_benchCol _
    have hsep : isHdr ("|" ++
        String.intercalate "|" (List.replicate (entries.length + 1) "---") ++ "|") = false := by
      simp only [String.append_assoc]; exact isHdr_pipe _
    by_cases hn : sortedBenchNames entries = []
    · simp [renderMicro, hs, hn, List.filter_append, List.filter_cons, isHdr_hMicro, isHdr_blank]
    · simp [renderMicro, hs, hn, List.filter_append, List.filter_cons, isHdr_hMicro, isHdr_blank,
        hhdr, hsep, hrows]

theorem filter_renderCold (rs : ResultSet) :
    (renderCold rs).filter isHdr =
      if rs.coldstart.isSome then ["## Cold Start Results"] else [] := by
  cases hs : rs.coldstart with
  | none => simp [renderCold, hs]
  | some entries =>
    have hr := filter_isHdr_map_nil coldRow (sortPairs entries) isHdr_coldRow
    simp [renderCold, hs, List.filter_append, List.filter_cons, isHdr_hCold, isHdr_blank,
      isHdr_coldcols, isHdr_coldsep, hr]

theorem filter_renderMemory (rs : ResultSet) :
    (renderMemory rs).filter isHdr =
      if rs.memory.isSome then ["## Memory Usage"] else [] := by
  cases hs : rs.memory with
  | none => simp [renderMemory, hs]
  | some entries =>
    have hr := filter_isHdr_map_nil memRow (sortPairs entries) isHdr_memRow
    simp [renderMemory, hs, List.filter_append, List.filter_cons, isHdr_hMem, isHdr_blank,
      isHdr_memcols, isHdr_memsep, hr]

/-! ### Character inventory of comma-grouped integers (no decimal point) -/

theorem digitChar_ne_dot (d : Nat) (h : d < 10) : digitChar d ≠ '.' := by
  have hall : ∀ e, e < 10 → digitChar e ≠ '.' := by decide
  exact hall d h

theorem mem_natDigitsAux (c : Char) :
    ∀ fuel n, c ∈ natDigitsAux fuel n → ∃ d, d < 10 ∧ c = digitChar d := by
  intro fuel
  induction fuel with
  | zero => intro n h; simp [natDigitsAux] at h
  | succ f ih =>
    intro n h
    by_cases hn : n = 0
    · simp [natDigitsAux, hn] at h
    · rw [show natDigitsAux (f + 1) n =
          digitChar (n % 10) :: natDigitsAux f (n / 10) from by
            simp [natDigitsAux, hn]] at h
      rcases List.mem_cons.mp h with h | h
      · exact ⟨n % 10, Nat.mod_lt n (by decide), h⟩
      · exact ih (n / 10) h

theorem mem_natCharsLE (c : Char) (n : Nat) (h : c ∈ natCharsLE n) :
    ∃ d, d < 10 ∧ c = digitChar d := by
  unfold natCharsLE at h
  by_cases hn : n = 0
  · rw [if_pos hn] at h
    rcases List.mem_singleton.mp h with rfl
    exact ⟨0, by decide, by decide⟩
  · rw [if_neg hn] at h
    exact mem_natDigitsAux c n n h

theorem mem_withCommasLE (c : Char) (l : List Char) (h : c ∈ withCommasLE l) :
    c ∈ l ∨ c = ',' := by
  unfold withCommasLE at h
  rw [List.mem_flatten] at h
  obtain ⟨x, hx, hcx⟩ := h
  rw [List.mem_map] at hx
  obtain ⟨ic, hic, rfl⟩ := hx
  have hmem : ic.2 ∈ l := by
    have hz : (ic.1, ic.2) ∈ (List.range l.length).zip l := by
      rw [← List.enum_eq_zip_range]
      exact hic
    exact (List.of_mem_zip hz).2
  by_cases hP : ic.1 ≠ 0 ∧ ic.1 % 3 = 0
  · rw [if_pos hP] at hcx
    rcases List.mem_cons.mp hcx with h | h
    · right; exact h
    · left; rcases List.mem_singleton.mp h with rfl; exact hmem
  · rw [if_neg hP] at hcx
    left; rcases List.mem_singleton.mp hcx with rfl; exact hmem

theorem dot_not_mem_pyCommaNat (n : Nat) : '.' ∉ (pyCommaNat n).data := by
  intro h
  have h2 : '.' ∈ withCommasLE (natCharsLE n) := by
    rw [show (pyCommaNat n).data = (withCommasLE (natCharsLE n)).reverse from rfl,
      List.mem_reverse] at h
    exact h
  rcases mem_withCommasLE _ _ h2 with h3 | h3
  · rcases mem_natCharsLE _ _ h3 with ⟨d, hd, hc⟩
    exact digitChar_ne_dot d hd hc.symm
  · exact absurd h3 (by decide)

theorem dot_not_mem_pyCommaInt (n : Int) : '.' ∉ (pyCommaInt n).data := by
  intro h
  rw [show pyCommaInt n = (if n < 0 then "-" else "") ++ pyCommaNat n.natAbs from rfl,
    String.data_append] at h
  rcases List.mem_append.mp h with h | h
  · by_cases hn : n < 0
    · rw [if_pos hn] at h; exact absurd h (by decide)
    · rw [if_neg hn] at h; exact absurd h (by decide)
  · exact dot_not_mem_pyCommaNat _ h

/-- Strings without a decimal point are closed under concatenation. -/
theorem dot_not_mem_append (s t : String) (hs : '.' ∉ s.data) (ht : '.' ∉ t.data) :
    '.' ∉ (s ++ t).data := by
  intro h
  rw [String.data_append] at h
  rcases List.mem_append.mp h with h | h
  · exact hs h
  · exact ht h

theorem option_match_id (x : Option Json) :
    (match x with | some v => some v | none => none) = x := by
  cases x <;> rfl

/-! ### The claims -/

/-- C1: for every directory that loads successfully, rendering yields a
report whose first four lines are the title/timestamp block and whose
section headings are exactly one per present (hence non-empty) category, in
the fixed order System Information, HTTP, Microbenchmark, Cold Start,
Memory, Methodology; no heading appears for an absent category. -/
theorem c1_sections (parse : String → Option Json) (files : List (String × String))
    (ts : String) (rs : ResultSet) (h : load_results parse files = .ok rs) :
    (generate_report ts rs).take 4 =
        ["# zigttp Benchmark Results", "", "**Generated:** " ++ ts, ""] ∧
    (generate_report ts rs).filter isHdr = expectedHeaders rs ∧
    catsGood rs := by
  refine ⟨?_, ?_, loadGo_good parse files emptyRS rs emptyRS_good h⟩
  · show (titleBlock ts ++ _).take 4 = titleBlock ts
    rw [show (4 : Nat) = (titleBlock ts).length from rfl, List.take_left]
  · unfold generate_report
    simp only [List.filter_append]
    rw [filter_titleBlock, filter_renderSystem, filter_renderHttp, filter_renderMicro,
      filter_renderCold, filter_renderMemory, filter_methodology]
    simp [expectedHeaders, List.append_assoc]

theorem c1_sections_witness :
    (generate_report "T" ⟨none, some (Json.obj []), none, none, none, none⟩).filter isHdr =
      ["## System Information", "## Methodology"] :=
  ((c1_sections (fun _ => some (Json.obj [])) [("system_info.json", "")] "T"
    ⟨none, some (Json.obj []), none, none, none, none⟩ rfl).2.1).trans (by decide)

/-- C2: with both arguments parsed, the run exits 1 with no output when the
directory is missing; exits 1 with no output when it loads to an empty
result set (equivalently: when no file is recognized); and exits 0 writing
the rendered report when at least one recognized file was loaded. -/
theorem c2_exit_codes (parse : String → Option Json) (ts : String)
    (files : List (String × String)) :
    (runMain parse false ts files = .dirMissing ∧
      exitCode (runMain parse false ts files) = some 1 ∧
      writtenReport (runMain parse false ts files) = none) ∧
    (∀ rs, load_results parse files = .ok rs → rs.isEmpty = true →
      runMain parse true ts files = .noResults ∧
      exitCode (runMain parse true ts files) = some 1 ∧
      writtenReport (runMain parse true ts files) = none) ∧
    (∀ rs, load_results parse files = .ok rs → rs.isEmpty = false →
      runMain parse true ts files = .success (generate_report ts rs) ∧
      exitCode (runMain parse true ts files) = some 0 ∧
      writtenReport (runMain parse true ts files) = some (generate_report ts rs)) ∧
    (∀ rs, load_results parse files = .ok rs →
      (rs.isEmpty = true ↔ ∀ f ∈ files, classify f.1 = FileClass.skip)) := by
  refine ⟨⟨rfl, rfl, rfl⟩, ?_, ?_, ?_⟩
  · intro rs h hemp
    have hm : runMain parse true ts files = .noResults := by
      unfold runMain
      rw [h]
      dsimp only
      rw [hemp]
      rfl
    exact ⟨hm, by rw [hm]; rfl, by rw [hm]; rfl⟩
  · intro rs h hemp
    have hm : runMain parse true ts files = .success (generate_report ts rs) := by
      unfold runMain
      rw [h]
      dsimp only
      rw [hemp]
      rfl
    exact ⟨hm, by rw [hm]; rfl, by rw [hm]; rfl⟩
  · intro rs h
    have := loadGo_isEmpty parse files emptyRS rs h
    simpa [show emptyRS.isEmpty = true from rfl] using this

theorem c2_exit_codes_witness :
    runMain (fun _ => none) true "T" [] = .noResults :=
  ((c2_exit_codes (fun _ => none) "T" []).2.1 emptyRS rfl rfl).1

/-- C3: when the directory holds a recognized file whose content fails to
parse, `load_results` propagates the error, the run terminates abnormally,
and no output is written. -/
theorem c3_malformed_aborts (parse : String → Option Json) (ts : String)
    (files : List (String × String)) (name c : String)
    (hmem : (name, c) ∈ files) (hcl : classify name ≠ FileClass.skip)
    (hp : parse c = none) :
    load_results parse files = .error () ∧
    runMain parse true ts files = .crashed ∧
    writtenReport (runMain parse true ts files) = none ∧
    exitCode (runMain parse true ts files) = none := by
  have hl : load_results parse files = .error () :=
    loadGo_error parse files emptyRS name c hmem hcl hp
  have hm : runMain parse true ts files = .crashed := by
    unfold runMain
    rw [hl]
    rfl
  exact ⟨hl, hm, by rw [hm]; rfl, by rw [hm]; rfl⟩

theorem c3_malformed_aborts_witness :
    load_results (fun _ => none) [("http_a.json", "bad")] = .error () :=
  (c3_malformed_aborts (fun _ => none) "T" [("http_a.json", "bad")] "http_a.json" "bad"
    (List.mem_singleton.mpr rfl) (by decide) rfl).1

/-- C4: in fallback mode (no statistics library) the result holds exactly
the keys mean, median, min, max, n; the median is the element at index
`n / 2` of the ascending-sorted sample; in particular the median of
`[1, 2, 3, 4]` is `3`. -/
theorem c4_fallback_median (data : List ℚ) (h : data ≠ []) :
    (compute_percentiles none data).map Prod.fst = ["mean", "median", "min", "max", "n"] ∧
    List.lookup "median" (compute_percentiles none data) =
      some ((List.insertionSort (· ≤ ·) data).getD (data.length / 2) 0) ∧
    List.lookup "median" (compute_percentiles none [1, 2, 3, 4]) = some 3 ∧
    (compute_percentiles none [1, 2, 3, 4]).map Prod.fst =
      ["mean", "median", "min", "max", "n"] := by
  refine ⟨?_, ?_, by decide, by decide⟩
  · unfold compute_percentiles
    rw [if_neg h]
    rfl
  · have hv : List.lookup "median" (compute_percentiles none data) =
        some ((List.insertionSort (· ≤ ·) data).getD
          ((List.insertionSort (· ≤ ·) data).length / 2) 0) := by
      unfold compute_percentiles
      rw [if_neg h]
      rfl
    rw [hv, List.length_insertionSort]

theorem c4_fallback_median_witness :
    List.lookup "median" (compute_percentiles none [1, 2, 3, 4]) = some 3 :=
  (c4_fallback_median [1, 2, 3, 4] (by decide)).2.2.1

/-- C5: the significance test returns the unavailable dict whenever the
statistics library is absent or either sample has fewer than 3 elements;
otherwise it returns the library's U statistic and p-value together with a
flag that is true exactly when the p-value is below 0.05. -/
theorem c5_significance (scipy : Option ScipyStats) (a b : List ℚ) :
    ((scipy = none ∨ a.length < 3 ∨ b.length < 3) →
      mann_whitney_test scipy a b = .unavailable) ∧
    (∀ s, scipy = some s → ¬(a.length < 3 ∨ b.length < 3) →
      mann_whitney_test scipy a b =
        .available (s.mannwhitneyu a b).1 (s.mannwhitneyu a b).2
          (decide ((s.mannwhitneyu a b).2 < mkRat 1 20))) ∧
    (∀ st p sg, mann_whitney_test scipy a b = .available st p sg →
      (sg = true ↔ p < mkRat 1 20)) := by
  refine ⟨?_, ?_, ?_⟩
  · intro h
    cases scipy with
    | none => rfl
    | some s =>
      rcases h with h | h
      · exact absurd h (by simp)
      · show (if a.length < 3 ∨ b.length < 3 then _ else _) = _
        rw [if_pos h]
  · intro s hs hlen
    subst hs
    show (if a.length < 3 ∨ b.length < 3 then _ else _) = _
    rw [if_neg hlen]
  · intro st p sg hmw
    cases scipy with
    | none => simp [mann_whitney_test] at hmw
    | some s =>
      simp only [mann_whitney_test] at hmw
      by_cases hlen : a.length < 3 ∨ b.length < 3
      · rw [if_pos hlen] at hmw
        exact absurd hmw (by simp)
      · rw [if_neg hlen] at hmw
        injection hmw with h1 h2 h3
        rw [← h2, ← h3]
        exact decide_eq_true_iff

theorem c5_significance_witness :
    mann_whitney_test none [] [] = MWResult.unavailable :=
  (c5_significance none [] []).1 (Or.inl rfl)

/-- C6: the HTTP section renders its rows from the entries sorted ascending
by the composite `runtime_endpoint` key, each row formatting RPS with
thousands separators and 0 decimals and p99 latency with 4 decimals
suffixed "s"; the claim's concrete entry renders exactly as stated. -/
theorem c6_http_rows (rs : ResultSet) (entries : List (String × Json))
    (h : rs.http = some entries) :
    renderHttp rs =
      ["## HTTP Benchmark Results", "",
       "| Runtime | Endpoint | RPS | p99 Latency |",
       "|---------|----------|-----|-------------|"] ++
        (sortPairs entries).map (fun e => httpRow e.2) ++ [""] ∧
    ((sortPairs entries).map Prod.fst).Pairwise (fun x y => strLeB x y = true) ∧
    httpRow (Json.obj [("runtime", .str "go"), ("endpoint", .str "/users"),
      ("metrics", .obj [("requests_per_second", .int 12345),
        ("latency_p99_secs", .float (mkRat 123 10000))])]) =
      "| go | /users | 12,345 | 0.0123s |" := by
  refine ⟨?_, sorted_keys_sortPairs entries, by decide⟩
  simp [renderHttp, h]

theorem c6_http_rows_witness :
    httpRow (Json.obj [("runtime", .str "go"), ("endpoint", .str "/users"),
      ("metrics", .obj [("requests_per_second", .int 12345),
        ("latency_p99_secs", .float (mkRat 123 10000))])]) =
      "| go | /users | 12,345 | 0.0123s |" :=
  (c6_http_rows ⟨none, none, some [], none, none, none⟩ [] rfl).2.2

/-- C7 counterexample: a cold-start entry whose `mean_us` is the JSON float
100.5 renders the cell "100.5us" — the bare `","` format spec keeps the
fractional part, so the row is not made of integer-formatted cells as the
claim asserts for every entry. -/
theorem c7_cold_counterexample :
    coldRow ("rust", Json.obj [("runtime", .str "rust"),
      ("metrics", .obj [("mean_us", .float (mkRat 201 2)), ("median_us", .int 90),
        ("p95_us", .int 150), ("p99_us", .int 200)])]) =
      "| rust | 100.5us | 90us | 150us | 200us |" ∧
    ¬ coldRowIntRendered ("rust", Json.obj [("runtime", .str "rust"),
      ("metrics", .obj [("mean_us", .float (mkRat 201 2)), ("median_us", .int 90),
        ("p95_us", .int 150), ("p99_us", .int 200)])]) := by
  constructor
  · decide
  · intro hcon
    obtain ⟨n1, n2, n3, n4, heq⟩ := hcon
    have hc1 : coldRow ("rust", Json.obj [("runtime", .str "rust"),
        ("metrics", .obj [("mean_us", .float (mkRat 201 2)), ("median_us", .int 90),
          ("p95_us", .int 150), ("p99_us", .int 200)])]) =
        "| rust | 100.5us | 90us | 150us | 200us |" := by decide
    have hs := hc1.symm.trans heq
    have hdot : '.' ∈ ("| rust | 100.5us | 90us | 150us | 200us |" : String).data := by decide
    rw [hs] at hdot
    dsimp only at hdot
    have d1 : '.' ∉ ("| " : String).data := by decide
    have d2 : '.' ∉ ("rust" : String).data := by decide
    have d3 : '.' ∉ (" | " : String).data := by decide
    have d4 : '.' ∉ ("us | " : String).data := by decide
    have d5 : '.' ∉ ("us |" : String).data := by decide
    have e1 : '.' ∉ (("| " : String) ++ "rust").data := dot_not_mem_append _ _ d1 d2
    have e2 := dot_not_mem_append _ _ e1 d3
    have e3 := dot_not_mem_append _ _ e2 (dot_not_mem_pyCommaInt n1)
    have e4 := dot_not_mem_append _ _ e3 d4
    have e5 := dot_not_mem_append _ _ e4 (dot_not_mem_pyCommaInt n2)
    have e6 := dot_not_mem_append _ _ e5 d4
    have e7 := dot_not_mem_append _ _ e6 (dot_not_mem_pyCommaInt n3)
    have e8 := dot_not_mem_append _ _ e7 d4
    have e9 := dot_not_mem_append _ _ e8 (dot_not_mem_pyCommaInt n4)
    have e10 := dot_not_mem_append _ _ e9 d5
    exact e10 hdot

/-- C7 as amended: the cold-start section renders rows sorted ascending by
runtime key; a row whose four metric values are JSON integers (0 when the
field is missing) consists of the integer values comma-grouped and suffixed
"us"; the claim's concrete all-integer entry renders exactly as stated.
Non-integer (float) metric values keep their fractional part instead. -/
theorem c7_cold_rows (rs : ResultSet) (entries : List (String × Json))
    (h : rs.coldstart = some entries) (e : String × Json) (m1 m2 m3 m4 : Int)
    (h1 : (e.2.getD "metrics" (.obj [])).getD "mean_us" (.int 0) = .int m1)
    (h2 : (e.2.getD "metrics" (.obj [])).getD "median_us" (.int 0) = .int m2)
    (h3 : (e.2.getD "metrics" (.obj [])).getD "p95_us" (.int 0) = .int m3)
    (h4 : (e.2.getD "metrics" (.obj [])).getD "p99_us" (.int 0) = .int m4) :
    renderCold rs =
      ["## Cold Start Results", "",
       "| Runtime | Mean | Median | p95 | p99 |",
       "|---------|------|--------|-----|-----|"] ++
        (sortPairs entries).map coldRow ++ [""] ∧
    ((sortPairs entries).map Prod.fst).Pairwise (fun x y => strLeB x y = true) ∧
    coldRow e = "| " ++ e.1 ++ " | " ++ pyCommaInt m1 ++ "us | " ++ pyCommaInt m2 ++
      "us | " ++ pyCommaInt m3 ++ "us | " ++ pyCommaInt m4 ++ "us |" ∧
    coldRow ("rust", Json.obj [("runtime", .str "rust"),
      ("metrics", .obj [("mean_us", .int 100), ("median_us", .int 90),
        ("p95_us", .int 150), ("p99_us", .int 200)])]) =
      "| rust | 100us | 90us | 150us | 200us |" := by
  refine ⟨by simp [renderCold, h], sorted_keys_sortPairs entries, ?_, by decide⟩
  unfold coldRow
  rw [h1, h2, h3, h4]
  rfl

theorem c7_cold_rows_witness :
    coldRow ("rust", Json.obj [("runtime", .str "rust"),
      ("metrics", .obj [("mean_us", .int 100), ("median_us", .int 90),
        ("p95_us", .int 150), ("p99_us", .int 200)])]) =
      "| rust | 100us | 90us | 150us | 200us |" :=
  (c7_cold_rows ⟨none, none, none, none, some [], none⟩ [] rfl
    ("rust", Json.obj [("runtime", .str "rust"),
      ("metrics", .obj [("mean_us", .int 100), ("median_us", .int 90),
        ("p95_us", .int 150), ("p99_us", .int 200)])])
    100 90 150 200 rfl rfl rfl rfl).2.2.2

/-- C8: rendering is deterministic modulo the timestamp — two renderings of
the same ResultSet have the same length and agree on every line except
index 2, which is the embedded generation-timestamp line. -/
theorem c8_deterministic (rs : ResultSet) (ts1 ts2 : String) (i : Nat) (h : i ≠ 2) :
    (generate_report ts1 rs).length = (generate_report ts2 rs).length ∧
    (generate_report ts1 rs).getD i "" = (generate_report ts2 rs).getD i "" ∧
    (generate_report ts1 rs).getD 2 "" = "**Generated:** " ++ ts1 := by
  refine ⟨rfl, ?_, rfl⟩
  match i, h with
  | 0, _ => rfl
  | 1, _ => rfl
  | 3, _ => rfl
  | n + 4, _ => rfl
  | 2, h => exact absurd rfl h

theorem c8_deterministic_witness :
    (generate_report "a" emptyRS).getD 0 "" = (generate_report "b" emptyRS).getD 0 "" :=
  (c8_deterministic emptyRS "a" "b" 0 (by decide)).2.1

/-- C9: within each of the four tabular categories, the loaded dict maps
every key to the payload of the last file (in enumeration order) that
derived this key — earlier same-key payloads are overwritten — and the dict
keys are pairwise distinct. -/
theorem c9_duplicate_keys (parse : String → Option Json) (files : List (String × String))
    (rs : ResultSet) (h : load_results parse files = .ok rs) (k : String) :
    olookup rs.http k = lastVal (catKeyed FileClass.http parse files) k ∧
    olookup rs.microbench k = lastVal (catKeyed FileClass.micro parse files) k ∧
    olookup rs.coldstart k = lastVal (catKeyed FileClass.cold parse files) k ∧
    olookup rs.memory k = lastVal (catKeyed FileClass.mem parse files) k ∧
    catsGood rs := by
  refine ⟨?_, ?_, ?_, ?_, loadGo_good parse files emptyRS rs emptyRS_good h⟩
  · exact (loadGo_cat parse (fun rs => rs.http) FileClass.http (by decide)
      (fun rs j => rfl)
      (fun rs c j hc => by cases c <;> first | rfl | exact absurd rfl hc)
      files emptyRS rs h k).trans (option_match_id _)
  · exact (loadGo_cat parse (fun rs => rs.microbench) FileClass.micro (by decide)
      (fun rs j => rfl)
      (fun rs c j hc => by cases c <;> first | rfl | exact absurd rfl hc)
      files emptyRS rs h k).trans (option_match_id _)
  · exact (loadGo_cat parse (fun rs => rs.coldstart) FileClass.cold (by decide)
      (fun rs j => rfl)
      (fun rs c j hc => by cases c <;> first | rfl | exact absurd rfl hc)
      files emptyRS rs h k).trans (option_match_id _)
  · exact (loadGo_cat parse (fun rs => rs.memory) FileClass.mem (by decide)
      (fun rs j => rfl)
      (fun rs c j hc => by cases c <;> first | rfl | exact absurd rfl hc)
      files emptyRS rs h k).trans (option_match_id _)

theorem c9_duplicate_keys_witness :
    olookup (some [("go", Json.obj [("runtime", .str "go"), ("v", .int 2)])]) "go" =
      lastVal (catKeyed FileClass.micro
        (fun c => if c = "1" then some (.obj [("runtime", .str "go"), ("v", .int 1)])
          else some (.obj [("runtime", .str "go"), ("v", .int 2)]))
        [("microbench_a.json", "1"), ("microbench_b.json", "2")]) "go" :=
  (c9_duplicate_keys
    (fun c => if c = "1" then some (.obj [("runtime", .str "go"), ("v", .int 1)])
      else some (.obj [("runtime", .str "go"), ("v", .int 2)]))
    [("microbench_a.json", "1"), ("microbench_b.json", "2")]
    ⟨none, none, none, some [("go", Json.obj [("runtime", .str "go"), ("v", .int 2)])],
      none, none⟩ rfl "go").2.1

/-- C10: the renderer never reads the versions category — two ResultSets
differing only there render identically — and a directory holding only
`versions.json` exits 0 with a report of exactly the title/timestamp block
and the Methodology section. -/
theorem c10_versions_unused (rs : ResultSet) (ts : String) (v1 v2 : Option Json) :
    generate_report ts { rs with versions := v1 } =
      generate_report ts { rs with versions := v2 } ∧
    ∀ parse c j, parse c = some j →
      runMain parse true ts [("versions.json", c)] =
        .success (titleBlock ts ++ methodologyBlock) ∧
      exitCode (runMain parse true ts [("versions.json", c)]) = some 0 := by
  constructor
  · rfl
  · intro parse c j hp
    have hload : load_results parse [("versions.json", c)] =
        .ok ⟨some j, none, none, none, none, none⟩ := by
      show loadGo parse emptyRS [("versions.json", c)] = _
      rw [show loadGo parse emptyRS [("versions.json", c)] =
          if classify "versions.json" = FileClass.skip then loadGo parse emptyRS []
          else match parse c with
            | none => .error ()
            | some j => loadGo parse (applyFile emptyRS (classify "versions.json") j) []
        from rfl]
      rw [if_neg (by decide), hp]
      rfl
    have hmain : runMain parse true ts [("versions.json", c)] =
        .success (titleBlock ts ++ methodologyBlock) := by
      unfold runMain
      rw [hload]
      rfl
    exact ⟨hmain, by rw [hmain]; rfl⟩

theorem c10_versions_unused_witness :
    runMain (fun _ => some Json.null) true "T" [("versions.json", "x")] =
      .success (titleBlock "T" ++ methodologyBlock) :=
  ((c10_versions_unused emptyRS "T" (some Json.null) none).2
    (fun _ => some Json.null) "x" Json.null rfl).1

